import Mathlib

/-!
Verification of the `StateMachine` / `State` classes of `src/util.js`.

The JavaScript class is embedded shallowly:

* A `State` instance is a `StateObj`: its mutable `initialized` flag, plus a
  model of the behavior of its `execute` body (`execRet`, the state name it
  returns, and `execCbs`, the callbacks it registers via `nextStep`).  The
  lifecycle hooks `init`, `handleEntered`, `handleExited`, `execute`, the
  optional `preExit`/`postExit`/`preEnter`/`postEnter` callbacks, queued
  `nextStep` callback invocations, the `popTransition` event emission and
  promise resolutions are all observable only through the trace of `Event`s
  an operation produces.
* The machine's mutable fields become the `StateMachine` structure; a method
  returns a `Res`: the new machine, the trace of events it produced, and
  `Option`ally the message of the error it threw or (for an async method)
  the rejection of its promise.  Statements inside one async body are
  sequenced by that body's own `await`s, so a directly awaited `transition`
  is a function from machine to settled machine and full trace.
* At the call sites that invoke the async `transition` WITHOUT awaiting it
  and then keep running (`step`'s execute loop and `popTransition`), the
  model keeps the real JavaScript control flow: the async body runs
  synchronously only up to its first `await` (`transitionSuspension` names
  that point: the machine as of the suspension and how many trace events
  have happened), control returns to the caller, the caller's remaining
  synchronous code runs (the `while (!this.transitioning)` check, the
  `emit`), and the suspended remainder settles in microtasks after the
  synchronous call returns.  A `throw` before the first `await` (the
  `Invalid state` check, a synchronous `TypeError`) merely rejects the
  un-awaited promise: the caller never observes it and continues.
* `step` therefore returns a `StepRes`: the machine, events and error as of
  the synchronous return of `step()` (`m`, `tr`, `err`), plus the machine
  and events of the pending transition's settling (`settled`, `post` — equal
  to `m` and `[]` when nothing is pending) and the first unobserved
  rejection (`rejection`).  Consecutive `step()` calls happen on later
  event-loop turns, so the next step runs on the `settled` machine.
* Queued `nextStep` callbacks are closures; the model records each callback
  id's observable behavior in the machine's `cbDefs` registry: the callback
  ids it registers via `nextStep` when invoked.  The drain in `step` is the
  source's `for...of` over the LIVE `nextStepCallbacks` array: a callback
  pushed during the drain is reached by the same loop, and the final
  `this.nextStepCallbacks = []` then discards everything.
* JavaScript peculiarities kept by the model: `if (this.state)` tests string
  truthiness, so a `null` state and the empty-string key both skip the exit
  hooks (`jsTruthy`); `if (newState)` in the `step` loop likewise treats an
  empty-string return from `execute` as "no transition"; indexing
  `possibleStates` with `null` coerces it to the property key `"null"`
  (`propKey`), which is how `transition(null)` reports `Invalid state null`;
  reading a method off an unregistered key's `undefined` throws, modeled as
  a `"TypeError"` error result.
* `possibleStates` is an association list with first-match lookup; the
  `Object.assign` merge of `addStates` prepends the new entries so that they
  shadow older bindings.  The JS array used as `stateStack` pushes and pops
  at its tail; the model keeps the stack top at the head of the list.  The
  `nextStepCallbacks` queue appends at the tail and drains from the front.
* The `while (!this.transitioning)` loop of `step` and the drain's
  `for...of` are unbounded in the source (the loop spins forever when every
  transition attempt rejects synchronously; a callback can re-register
  itself): `stepLoop` and `drainLoop` take explicit fuel and yield the
  marker error `"NonTermination"` on exhaustion.  The marker means the
  source call never returns; it corresponds to no JavaScript error.
-/

/-- Observable events: lifecycle hook invocations (each carrying the state
key it runs on), the four optional transition callbacks, queued `nextStep`
callback invocations (carrying the argument list they receive), the
`popTransition` emission (carrying the reported stack depth), and the
resolution of a `pushAndWait` promise (by handler id). -/
inductive Event where
  | initE (k : String)
  | entered (k : String)
  | exited (k : String)
  | executeE (k : String)
  | preExitE
  | postExitE
  | preEnterE
  | postEnterE
  | callbackE (id : Nat) (args : List Nat)
  | popEmitE (depth : Nat)
  | resolveE (id : Nat)
deriving Repr, DecidableEq

/-- Model of a `State` instance: the `initialized` flag from the source, plus
the behavior of its `execute` body — `execRet` is the value it returns (a
state name or nothing) and `execCbs` the callbacks it registers via
`nextStep` while running. -/
structure StateObj where
  initialized : Bool
  execRet : Option String
  execCbs : List Nat
deriving Repr, DecidableEq

/-- A subscriber to the machine's `popTransition` event, as registered by
`pushAndWait`: its promise id and the stack depth captured before the push
(the closure variable `stackLength`). -/
structure Handler where
  id : Nat
  captured : Nat
deriving Repr, DecidableEq

/-- The mutable fields of the `StateMachine` class.  `popHandlers` models the
listener list of the inherited event emitter for the `popTransition` event;
`cbDefs` is the model's registry of what each queued callback closure does
when invoked (the callback ids it registers via `nextStep`) — the machine
never mutates it. -/
structure StateMachine where
  initialState : String
  possibleStates : List (String × StateObj)
  stateArgs : List Nat
  state : Option String
  nextStepCallbacks : List Nat
  stateStack : List (Option String)
  transitioning : Bool
  popHandlers : List Handler
  cbDefs : List (Nat × List Nat)
deriving Repr, DecidableEq

/-- Result of running a method: the machine after the call, the trace of
events produced, and the message of the error it threw — for an async
method, the rejection of its promise — if any. -/
structure Res where
  m : StateMachine
  tr : List Event
  err : Option String
deriving Repr, DecidableEq

/-- Result of a `step()` call.  `m`, `tr`, `err` describe the moment the
synchronous call returns: the machine as of that moment, the events that
happened during the call, and a synchronously thrown error (a `TypeError`,
or the model's `NonTermination` marker for the unbounded source loop).  When
the call left an un-awaited `transition` suspended at its first `await`,
`settled` and `post` are the machine and the events of its settling, which
happens in microtasks after the call returns (`settled = m`, `post = []`
when nothing is pending); `rejection` is the first rejection of an
un-awaited transition — never observed by `step` itself. -/
structure StepRes where
  m : StateMachine
  tr : List Event
  err : Option String
  settled : StateMachine
  post : List Event
  rejection : Option String
deriving Repr, DecidableEq

/-- JavaScript truthiness of the `state` field: `null` and the empty string
are falsy (`if (this.state)`, `if (newState)`). -/
def jsTruthy : Option String → Bool
  | none => false
  | some s => s != ""

/-- The property key a value is coerced to when indexing `possibleStates`:
`null` becomes the string key `"null"`. -/
def propKey : Option String → String
  | none => "null"
  | some s => s

/-- First-match lookup in the state registry (`this.possibleStates[k]`). -/
def findState : List (String × StateObj) → String → Option StateObj
  | [], _ => none
  | (k', o) :: rest, k => if k' = k then some o else findState rest k

/-- The `k in this.possibleStates` membership test. -/
def hasKey (ps : List (String × StateObj)) (k : String) : Bool :=
  (findState ps k).isSome

/-- `stateObj.initialized = true`: flip the flag on the registered instance. -/
def setInitialized : List (String × StateObj) → String → List (String × StateObj)
  | [], _ => []
  | (k', o) :: rest, k =>
    if k' = k then (k', { o with initialized := true }) :: setInitialized rest k
    else (k', o) :: setInitialized rest k

/-- The callback ids a given callback closure registers via `nextStep` when
invoked, looked up in the model's `cbDefs` registry (unknown ids register
nothing). -/
def cbRegs : List (Nat × List Nat) → Nat → List Nat
  | [], _ => []
  | (id', regs) :: rest, id => if id' = id then regs else cbRegs rest id

/-- Which of the four optional callbacks of `transition`'s options object are
supplied (non-null). -/
structure TransitionOpts where
  preExit : Bool
  postExit : Bool
  preEnter : Bool
  postEnter : Bool
deriving Repr, DecidableEq

/-- No options supplied: the default `{}`, and also what `step` effectively
passes (it forwards `stepArgs`, never callbacks, so all four default to
null). -/
def noOpts : TransitionOpts := ⟨false, false, false, false⟩

/-- All four optional callbacks supplied. -/
def allOpts : TransitionOpts := ⟨true, true, true, true⟩

/-- `addStates`: `Object.assign` merge of new entries into the registry; new
entries shadow older bindings of the same key, modeled by prepending for the
first-match lookup.  The back-references (`state.stateMachine`,
`state.stateKey`) are object wiring with no observable effect here. -/
def StateMachine.addStates (m : StateMachine) (sts : List (String × StateObj)) : StateMachine :=
  { m with possibleStates := sts ++ m.possibleStates }

/-- The constructor: stores its arguments, starts with `state = null`, empty
callback queue and stack, `transitioning = false`, and registers the given
states via `addStates`.  No state method is invoked (no trace exists). -/
def mkStateMachine (initialState : String) (possibleStates : List (String × StateObj))
    (stateArgs : List Nat) : StateMachine :=
  StateMachine.addStates
    { initialState := initialState, possibleStates := [], stateArgs := stateArgs,
      state := none, nextStepCallbacks := [], stateStack := [], transitioning := false,
      popHandlers := [], cbDefs := [] }
    possibleStates

/-- `nextStep(callback)`: append to the queue; nothing runs now. -/
def StateMachine.nextStep (m : StateMachine) (c : Nat) : StateMachine :=
  { m with nextStepCallbacks := m.nextStepCallbacks ++ [c] }

/-- The exit half of `transition`: if the current state is truthy, run
`preExit` if supplied, await its `handleExited`, run `postExit` if supplied.
Reading `handleExited` off an unregistered current key throws (after
`preExit` already ran). -/
def StateMachine.exitPhase (m : StateMachine) (opts : TransitionOpts) : Res :=
  if jsTruthy m.state then
    match findState m.possibleStates (propKey m.state) with
    | none => ⟨m, if opts.preExit then [Event.preExitE] else [], some "TypeError"⟩
    | some _ =>
      ⟨m, (if opts.preExit then [Event.preExitE] else []) ++
          [Event.exited (propKey m.state)] ++
          (if opts.postExit then [Event.postExitE] else []), none⟩
  else ⟨m, [], none⟩

/-- The enter half of `transition`, run after `state` has been reassigned:
if the (now current) state object has never been marked initialized, call its
`init` and mark it; then `preEnter` if supplied, await `handleEntered`, then
`postEnter` if supplied. -/
def StateMachine.enterPhase (m : StateMachine) (k : String) (opts : TransitionOpts) : Res :=
  match findState m.possibleStates k with
  | none => ⟨m, [], some "TypeError"⟩
  | some stObj =>
    ⟨{ m with possibleStates :=
         if stObj.initialized then m.possibleStates else setInitialized m.possibleStates k },
     (if stObj.initialized then [] else [Event.initE k]) ++
     (if opts.preEnter then [Event.preEnterE] else []) ++
     [Event.entered k] ++
     (if opts.postEnter then [Event.postEnterE] else []), none⟩

/-- `transition(newState, options)` as observed by a caller that awaits it:
throw `Invalid state …` if `newState` is not a registered key (before any
mutation); otherwise set `transitioning = true`, run the exit phase,
reassign `state`, run the enter phase, and clear `transitioning`.  The
statements of this async body are sequenced by its own `await`s, so the
settled machine and the full trace are functions of the input. -/
def StateMachine.transition (m : StateMachine) (newState : Option String)
    (opts : TransitionOpts) : Res :=
  if hasKey m.possibleStates (propKey newState) then
    let m1 : StateMachine := { m with transitioning := true }
    let ex := m1.exitPhase opts
    match ex.err with
    | some e => ⟨ex.m, ex.tr, some e⟩
    | none =>
      let m3 : StateMachine := { ex.m with state := newState }
      let en := m3.enterPhase (propKey newState) opts
      match en.err with
      | some e => ⟨en.m, ex.tr ++ en.tr, some e⟩
      | none => ⟨{ en.m with transitioning := false }, ex.tr ++ en.tr, none⟩
  else ⟨m, [], some ("Invalid state " ++ propKey newState)⟩

/-- The suspension point of an un-awaited `transition` call: the async body
runs synchronously up to its first `await`, then control returns to the
caller.  Returns the machine as of that moment and how many of the call's
trace events have already happened:
* unknown target key: the body throws before any `await` — a synchronous
  rejection, machine untouched, no events;
* truthy current state: the first `await` is `await preExit(...)` when
  `preExit` is supplied (one event: the `preExit` call), otherwise
  `await ....handleExited(...)` (one event: the `handleExited` call — or a
  synchronous `TypeError` with no event if the current key is unregistered);
  only `transitioning = true` has been assigned;
* falsy current state: no exit block runs, so `state` is reassigned and the
  `init` check performed synchronously, and the body suspends at
  `await preEnter(...)` or `await ....handleEntered(...)` — the optional
  `init` event plus one more event have happened. -/
def StateMachine.transitionSuspension (m : StateMachine) (newState : Option String)
    (opts : TransitionOpts) : StateMachine × Nat :=
  match findState m.possibleStates (propKey newState) with
  | none => (m, 0)
  | some stObj =>
    let m1 : StateMachine := { m with transitioning := true }
    if jsTruthy m1.state then
      if opts.preExit then (m1, 1)
      else
        match findState m1.possibleStates (propKey m1.state) with
        | none => (m1, 0)
        | some _ => (m1, 1)
    else
      let ps2 := if stObj.initialized then m1.possibleStates
                 else setInitialized m1.possibleStates (propKey newState)
      ({ m1 with state := newState, possibleStates := ps2 },
       (if stObj.initialized then 0 else 1) + 1)

/-- `pushTransition(newState, args)`: push the current state (even when it is
still `null`) onto the stack, then call `transition`.  No synchronous code
follows the un-awaited call, so its settling is observably identical to a
completed call. -/
def StateMachine.pushTransition (m : StateMachine) (newState : Option String)
    (opts : TransitionOpts) : Res :=
  StateMachine.transition { m with stateStack := m.state :: m.stateStack } newState opts

/-- `this.emit('popTransition', depth)`: every registered handler whose
captured depth equals the reported depth resolves its promise and
unsubscribes itself; the others stay subscribed. -/
def emitPop (m : StateMachine) (depth : Nat) : StateMachine × List Event :=
  ({ m with popHandlers := m.popHandlers.filter (fun h => h.captured != depth) },
   Event.popEmitE depth ::
     (m.popHandlers.filter (fun h => h.captured == depth)).map (fun h => Event.resolveE h.id))

/-- `popTransition()`: throw if the stack is empty; otherwise pop the top
entry and call the async `transition` WITHOUT awaiting it.  The transition
runs to its first suspension (or rejects synchronously) and the emission
fires immediately afterwards — before the transition's remaining hooks run —
carrying the new (post-pop) stack depth; the suspended remainder then
settles.  The emission happens even when the transition rejects.  The
returned machine is the settled one with the handler filtering applied (the
transition never touches the listener list, so filtering at emission time or
at settlement is the same machine); the trace places the emission between
the pre-suspension and post-suspension segments of the transition's trace,
and `err` carries the transition's (unhandled) rejection if any. -/
def StateMachine.popTransition (m : StateMachine) : Res :=
  match m.stateStack with
  | [] => ⟨m, [], some "Cannot transitionPop, state stack is empty"⟩
  | top :: rest =>
    let r := StateMachine.transition { m with stateStack := rest } top noOpts
    let s := StateMachine.transitionSuspension { m with stateStack := rest } top noOpts
    let em := emitPop r.m rest.length
    ⟨em.1, r.tr.take s.2 ++ em.2 ++ r.tr.drop s.2, r.err⟩

/-- `pushAndWait(newState, args)`: capture the current stack depth, subscribe
a handler that resolves the returned promise (`hid` names it) when a
`popTransition` emission reports exactly that depth, then `pushTransition`. -/
def StateMachine.pushAndWait (m : StateMachine) (newState : Option String)
    (opts : TransitionOpts) (hid : Nat) : Res :=
  let m1 : StateMachine :=
    { m with popHandlers := m.popHandlers ++ [⟨hid, m.stateStack.length⟩] }
  StateMachine.pushTransition m1 newState opts

/-- The bootstrap block at the top of `step`: on the very first call
(`state === null`) assign `state = initialState` and call `init` then
`handleEntered` on it — plain synchronous calls, without consulting or
setting the `initialized` flag, exactly as the source does. -/
def bootstrap (m : StateMachine) : Res :=
  match m.state with
  | some _ => ⟨m, [], none⟩
  | none =>
    let m1 : StateMachine := { m with state := some m.initialState }
    match findState m1.possibleStates m1.initialState with
    | none => ⟨m1, [], some "TypeError"⟩
    | some _ => ⟨m1, [Event.initE m1.initialState, Event.entered m1.initialState], none⟩

/-- The body of the drain's `for...of` loop: invoke the callback at index
`i` of the LIVE queue with the given arguments, appending whatever it
registers via `nextStep` onto the very queue the loop is iterating, until
the index passes the (current) length.  Fuel bounds the unbounded source
loop (a callback that keeps re-registering spins forever); exhaustion yields
the `NonTermination` marker. -/
def drainLoop (defs : List (Nat × List Nat)) (invokeArgs : List Nat) :
    Nat → List Nat → Nat → List Event × Option String
  | 0, queue, i => if i < queue.length then ([], some "NonTermination") else ([], none)
  | fuel + 1, queue, i =>
    match queue[i]? with
    | none => ([], none)
    | some id =>
      let k := drainLoop defs invokeArgs fuel (queue ++ cbRegs defs id) (i + 1)
      (Event.callbackE id invokeArgs :: k.1, k.2)

/-- The callback-drain block of `step`: if the queue is non-empty, run the
live `for...of` over it, each callback invoked with
`(stateArgs..., stepArgs...)`, then clear the queue (also discarding
anything registered during the drain). -/
def drainCallbacks (fuel : Nat) (m : StateMachine) (stepArgs : List Nat) : Res :=
  if m.nextStepCallbacks.isEmpty then ⟨m, [], none⟩
  else
    let d := drainLoop m.cbDefs (m.stateArgs ++ stepArgs) fuel m.nextStepCallbacks 0
    ⟨{ m with nextStepCallbacks := [] }, d.1, d.2⟩

/-- The `while (!this.transitioning)` loop of `step`, with fuel for the
unbounded source loop.  `execute` runs (registering its callbacks and
returning a name or nothing); a truthy name starts an un-awaited
`transition`:
* if the transition's body throws before its first `await` (unknown key, or
  a synchronous `TypeError`), the promise rejects and the loop — which never
  observes the rejection — just re-checks `transitioning` (still false for
  an unknown key, so `execute` runs again; already true after a `TypeError`
  in the exit block, so the loop exits with the machine wedged);
* otherwise the body suspends at its first `await` with
  `transitioning = true`, so the while check exits the loop and `step()`
  returns; the suspended remainder settles afterwards (`settled`/`post`). -/
def stepLoop : Nat → StateMachine → StepRes
  | 0, m => ⟨m, [], some "NonTermination", m, [], none⟩
  | fuel + 1, m =>
    if m.transitioning then ⟨m, [], none, m, [], none⟩
    else
      match findState m.possibleStates (propKey m.state) with
      | none => ⟨m, [], some "TypeError", m, [], none⟩
      | some stObj =>
        let m1 : StateMachine :=
          { m with nextStepCallbacks := m.nextStepCallbacks ++ stObj.execCbs }
        if jsTruthy stObj.execRet then
          let r := StateMachine.transition m1 stObj.execRet noOpts
          match r.err with
          | some e =>
            if r.m.transitioning then
              ⟨r.m, Event.executeE (propKey m.state) :: r.tr, none, r.m, [], some e⟩
            else
              let k := stepLoop fuel r.m
              ⟨k.m, Event.executeE (propKey m.state) :: (r.tr ++ k.tr), k.err,
               k.settled, k.post, some e⟩
          | none =>
            let s := StateMachine.transitionSuspension m1 stObj.execRet noOpts
            ⟨s.1, Event.executeE (propKey m.state) :: r.tr.take s.2, none,
             r.m, r.tr.drop s.2, none⟩
        else ⟨m1, [Event.executeE (propKey m.state)], none, m1, [], none⟩

/-- `step(...stepArgs)`: bootstrap on the first call, drain the queued
callbacks, then run the execute loop. -/
def StateMachine.step (fuel : Nat) (m : StateMachine) (stepArgs : List Nat) : StepRes :=
  let b := bootstrap m
  match b.err with
  | some e => ⟨b.m, b.tr, some e, b.m, [], none⟩
  | none =>
    let d := drainCallbacks fuel b.m stepArgs
    match d.err with
    | some e => ⟨d.m, b.tr ++ d.tr, some e, d.m, [], none⟩
    | none =>
      let r := stepLoop fuel d.m
      ⟨r.m, b.tr ++ d.tr ++ r.tr, r.err, r.settled, r.post, r.rejection⟩

/-- `currentState()`: the instance registered under the current key. -/
def StateMachine.currentState (m : StateMachine) : Option StateObj :=
  findState m.possibleStates (propKey m.state)

/-! ### Concrete machines used by the witnesses and counterexamples -/

/-- Machine for the C1 witness: current state `A`, both states registered
and not yet initialized. -/
def c1wm : StateMachine :=
  { mkStateMachine "A" [("A", ⟨false, none, []⟩), ("B", ⟨false, none, []⟩)] [] with
    state := some "A" }

/-- Machine for the C2 counterexample: current state `A` whose `execute`
returns the empty string, which is not a registered key. -/
def c2cm : StateMachine :=
  { mkStateMachine "A" [("A", ⟨false, some "", []⟩)] [] with state := some "A" }

/-- Machine for C2: current state `A` whose `execute` returns the
unregistered (non-empty) name `B`. -/
def c2wm : StateMachine :=
  { mkStateMachine "A" [("A", ⟨false, some "B", []⟩)] [] with state := some "A" }

/-- Machine for the C3 failing input: `A.execute` returns `B`, `B.execute`
returns nothing. -/
def c3wm : StateMachine :=
  { mkStateMachine "A" [("A", ⟨false, some "B", []⟩), ("B", ⟨false, none, []⟩)] [] with
    state := some "A" }

/-- Machine for the C4 failing input: a fresh machine with initial state `A`
and a second state `B`, no `execute` behavior. -/
def c4m : StateMachine :=
  mkStateMachine "A" [("A", ⟨false, none, []⟩), ("B", ⟨false, none, []⟩)] []

/-- Machine for the C7 witness: current state `A`, one pushed entry on the
stack, and one subscribed `pushAndWait` handler (promise id 7) that captured
depth 0 before the push. -/
def c7wm : StateMachine :=
  { mkStateMachine "A" [("A", ⟨false, none, []⟩)] [] with
    state := some "A", stateStack := [some "A"], popHandlers := [⟨7, 0⟩] }

/-- Machine for the C8 failing input: currently in `B` with `A` pushed on
the stack. -/
def c8wm : StateMachine :=
  { mkStateMachine "A" [("A", ⟨false, none, []⟩), ("B", ⟨true, none, []⟩)] [] with
    state := some "B", stateStack := [some "A"] }

/-- Machine for the C9 counterexample: callback 3 is already queued; when
invoked it registers callback 4 via `nextStep` (per `cbDefs`), during the
very drain that is iterating the queue. -/
def c9cm : StateMachine :=
  { mkStateMachine "A" [("A", ⟨false, none, []⟩)] [] with
    state := some "A", nextStepCallbacks := [3], cbDefs := [(3, [4])] }

/-- Machine for the C9 amended-theorem witness: `A.execute` registers
callback 5 (which itself registers nothing) and transitions to `B`. -/
def c9wm : StateMachine :=
  { mkStateMachine "A" [("A", ⟨false, some "B", [5]⟩), ("B", ⟨false, none, []⟩)] [] with
    state := some "A" }

/-! ### Helper lemmas -/

theorem findState_setInitialized_self (ps : List (String × StateObj)) (k : String) :
    findState (setInitialized ps k) k =
      Option.map (fun o => { o with initialized := true }) (findState ps k) := by
  induction ps with
  | nil => simp [setInitialized, findState]
  | cons hd tl ih =>
    obtain ⟨k', o⟩ := hd
    by_cases h : k' = k <;> simp [setInitialized, findState, h, ih]

theorem findState_setInitialized_ne (ps : List (String × StateObj)) (k j : String)
    (h : j ≠ k) : findState (setInitialized ps k) j = findState ps j := by
  induction ps with
  | nil => simp [setInitialized]
  | cons hd tl ih =>
    obtain ⟨k', o⟩ := hd
    by_cases h1 : k' = k
    · have h2 : ¬ k' = j := by
        intro hkj
        exact h (hkj ▸ h1)
      simp [setInitialized, findState, h1, h2, Ne.symm h, ih]
    · by_cases h2 : k' = j <;> simp [setInitialized, findState, h1, h2, h, ih]

theorem exitPhase_machine (m : StateMachine) (opts : TransitionOpts) :
    (m.exitPhase opts).m = m := by
  unfold StateMachine.exitPhase
  split
  · split <;> rfl
  · rfl

theorem enterPhase_fields (m : StateMachine) (k : String) (opts : TransitionOpts) :
    (m.enterPhase k opts).m.state = m.state ∧
    (m.enterPhase k opts).m.transitioning = m.transitioning ∧
    (m.enterPhase k opts).m.stateStack = m.stateStack ∧
    (m.enterPhase k opts).m.popHandlers = m.popHandlers ∧
    (m.enterPhase k opts).m.nextStepCallbacks = m.nextStepCallbacks ∧
    (m.enterPhase k opts).m.stateArgs = m.stateArgs ∧
    (m.enterPhase k opts).m.initialState = m.initialState := by
  unfold StateMachine.enterPhase
  split <;> simp

theorem transition_ok (m : StateMachine) (ns : Option String) (opts : TransitionOpts)
    (obj : StateObj)
    (hns : findState m.possibleStates (propKey ns) = some obj)
    (hcur : jsTruthy m.state = true →
      (findState m.possibleStates (propKey m.state)).isSome = true) :
    (m.transition ns opts).err = none ∧
    (m.transition ns opts).m.state = ns ∧
    (m.transition ns opts).m.transitioning = false ∧
    (m.transition ns opts).m.stateStack = m.stateStack ∧
    (m.transition ns opts).m.popHandlers = m.popHandlers ∧
    (m.transition ns opts).m.nextStepCallbacks = m.nextStepCallbacks ∧
    (m.transition ns opts).m.stateArgs = m.stateArgs ∧
    (m.transition ns opts).m.initialState = m.initialState ∧
    (m.transition ns opts).m.possibleStates =
      (if obj.initialized then m.possibleStates
       else setInitialized m.possibleStates (propKey ns)) ∧
    (m.transition ns opts).tr =
      (if jsTruthy m.state then
        (if opts.preExit then [Event.preExitE] else []) ++
        [Event.exited (propKey m.state)] ++
        (if opts.postExit then [Event.postExitE] else [])
       else []) ++
      ((if obj.initialized then [] else [Event.initE (propKey ns)]) ++
       (if opts.preEnter then [Event.preEnterE] else []) ++
       [Event.entered (propKey ns)] ++
       (if opts.postEnter then [Event.postEnterE] else [])) := by
  cases ht : jsTruthy m.state with
  | true =>
    obtain ⟨cObj, hc⟩ := Option.isSome_iff_exists.mp (hcur ht)
    cases hio : obj.initialized <;>
      simp [StateMachine.transition, StateMachine.exitPhase, StateMachine.enterPhase,
        hasKey, hns, hc, ht, hio]
  | false =>
    cases hio : obj.initialized <;>
      simp [StateMachine.transition, StateMachine.exitPhase, StateMachine.enterPhase,
        hasKey, hns, ht, hio]

theorem transition_invalid (m : StateMachine) (k : String) (opts : TransitionOpts)
    (h : findState m.possibleStates k = none) :
    m.transition (some k) opts = ⟨m, [], some ("Invalid state " ++ k)⟩ := by
  simp [StateMachine.transition, hasKey, propKey, h]

theorem transition_invalid_opt (m : StateMachine) (ns : Option String)
    (opts : TransitionOpts)
    (h : findState m.possibleStates (propKey ns) = none) :
    m.transition ns opts = ⟨m, [], some ("Invalid state " ++ propKey ns)⟩ := by
  simp [StateMachine.transition, hasKey, h]

theorem transition_tr_facts (m : StateMachine) (ns : Option String) (opts : TransitionOpts)
    (obj : StateObj)
    (hns : findState m.possibleStates (propKey ns) = some obj)
    (hcur : jsTruthy m.state = true →
      (findState m.possibleStates (propKey m.state)).isSome = true) :
    Event.entered (propKey ns) ∈ (m.transition ns opts).tr ∧
    (∀ i, Event.resolveE i ∉ (m.transition ns opts).tr) ∧
    (∀ d, Event.popEmitE d ∉ (m.transition ns opts).tr) := by
  obtain ⟨_, _, _, _, _, _, _, _, _, htr⟩ := transition_ok m ns opts obj hns hcur
  refine ⟨?_, ?_, ?_⟩
  · rw [htr]
    simp [List.mem_append]
  · intro i
    rw [htr]
    split_ifs <;> simp
  · intro d
    rw [htr]
    split_ifs <;> simp

theorem enterPhase_popHandlers (m : StateMachine) (k : String) (opts : TransitionOpts) :
    (m.enterPhase k opts).m.popHandlers = m.popHandlers := by
  unfold StateMachine.enterPhase
  split <;> simp

theorem transition_popHandlers (m : StateMachine) (ns : Option String)
    (opts : TransitionOpts) :
    (m.transition ns opts).m.popHandlers = m.popHandlers := by
  simp only [StateMachine.transition]
  split
  · split
    · simp [exitPhase_machine]
    · split <;> simp [enterPhase_popHandlers, exitPhase_machine]
  · rfl

theorem popTransition_ok (M : StateMachine) (top : Option String)
    (rest : List (Option String)) (obj : StateObj)
    (hstk : M.stateStack = top :: rest)
    (hns : findState M.possibleStates (propKey top) = some obj)
    (hcur : jsTruthy M.state = true →
      (findState M.possibleStates (propKey M.state)).isSome = true) :
    (M.popTransition).err = none ∧
    (M.popTransition).m.state = top ∧
    (M.popTransition).m.stateStack = rest ∧
    (M.popTransition).m.popHandlers =
      M.popHandlers.filter (fun h => h.captured != rest.length) ∧
    (M.popTransition).tr =
      (StateMachine.transition { M with stateStack := rest } top noOpts).tr.take
        (StateMachine.transitionSuspension { M with stateStack := rest } top noOpts).2 ++
      Event.popEmitE rest.length ::
        (M.popHandlers.filter (fun h => h.captured == rest.length)).map
          (fun h => Event.resolveE h.id) ++
      (StateMachine.transition { M with stateStack := rest } top noOpts).tr.drop
        (StateMachine.transitionSuspension { M with stateStack := rest } top noOpts).2 := by
  have hns' : findState ({ M with stateStack := rest } : StateMachine).possibleStates
      (propKey top) = some obj := hns
  have hcur' : jsTruthy ({ M with stateStack := rest } : StateMachine).state = true →
      (findState ({ M with stateStack := rest } : StateMachine).possibleStates
        (propKey ({ M with stateStack := rest } : StateMachine).state)).isSome = true := hcur
  obtain ⟨t1, t2, t3, t4, t5, _, _, _, _, _⟩ :=
    transition_ok { M with stateStack := rest } top noOpts obj hns' hcur'
  simp only [StateMachine.popTransition, hstk]
  simp [t1, t2, t3, t4, t5, emitPop]

theorem drain_empty (fuel : Nat) (m : StateMachine) (args : List Nat)
    (h : m.nextStepCallbacks = []) :
    drainCallbacks fuel m args = ⟨m, [], none⟩ := by
  simp [drainCallbacks, h]

theorem drainLoop_done (defs : List (Nat × List Nat)) (ar : List Nat)
    (fuel : Nat) (q : List Nat) (i : Nat) (h : q.length ≤ i) :
    drainLoop defs ar fuel q i = ([], none) := by
  cases fuel <;>
    simp [drainLoop, Nat.not_lt.mpr h, List.getElem?_eq_none h]

theorem drainLoop_plain (defs : List (Nat × List Nat)) (ar : List Nat) :
    ∀ (fuel : Nat) (q : List Nat) (i : Nat),
      (∀ x ∈ q, cbRegs defs x = []) → q.length ≤ fuel + i →
      drainLoop defs ar fuel q i =
        ((q.drop i).map (fun id => Event.callbackE id ar), none) := by
  intro fuel
  induction fuel with
  | zero =>
    intro q i hreg hlen
    have hle : q.length ≤ i := by simpa using hlen
    simp [drainLoop_done defs ar 0 q i hle, List.drop_of_length_le hle]
  | succ fuel ih =>
    intro q i hreg hlen
    cases hq : q[i]? with
    | none =>
      have hge : q.length ≤ i := List.getElem?_eq_none_iff.mp hq
      simp [drainLoop, hq, List.drop_of_length_le hge]
    | some id =>
      have hmem : id ∈ q := List.getElem?_mem hq
      obtain ⟨hlt, hEq⟩ := List.getElem?_eq_some_iff.mp hq
      have hdrop : q.drop i = id :: q.drop (i + 1) := by
        rw [← List.getElem_cons_drop q i hlt, hEq]
      have hq' : q ++ cbRegs defs id = q := by
        rw [hreg id hmem]
        simp
      have hlen' : q.length ≤ fuel + (i + 1) := by omega
      simp [drainLoop, hq, hq', ih q (i + 1) hreg hlen', hdrop]

/-! ### C1: transition hook ordering -/

/-- C1: for a transition from a truthy current state `A` to a registered
state `B` with all four optional callbacks supplied, `transition` succeeds
and the hooks run in exactly the order `preExit`, `A.handleExited`,
`postExit`, (`B.init` only if `B` was never marked initialized), `preEnter`,
`B.handleEntered`, `postEnter`, with the machine left in state `B`; the
trace records each hook completing before the next starts. -/
theorem transition_hook_order (m : StateMachine) (a b : String) (aObj bObj : StateObj)
    (hs : m.state = some a) (ha : a ≠ "")
    (hfa : findState m.possibleStates a = some aObj)
    (hfb : findState m.possibleStates b = some bObj) :
    (m.transition (some b) allOpts).err = none ∧
    (m.transition (some b) allOpts).m.state = some b ∧
    (m.transition (some b) allOpts).m.transitioning = false ∧
    (m.transition (some b) allOpts).tr =
      [Event.preExitE, Event.exited a, Event.postExitE] ++
      (if bObj.initialized then [] else [Event.initE b]) ++
      [Event.preEnterE, Event.entered b, Event.postEnterE] := by
  have hns : findState m.possibleStates (propKey (some b)) = some bObj := by
    simpa [propKey] using hfb
  have hcur : jsTruthy m.state = true →
      (findState m.possibleStates (propKey m.state)).isSome = true := by
    intro _
    simp [hs, propKey, hfa]
  obtain ⟨h1, h2, h3, _, _, _, _, _, _, h10⟩ :=
    transition_ok m (some b) allOpts bObj hns hcur
  refine ⟨h1, h2, h3, ?_⟩
  rw [h10]
  cases hbi : bObj.initialized <;>
    simp [hs, propKey, jsTruthy, ha, allOpts, hbi]

/-- Witness for C1 at a concrete machine. -/
theorem transition_hook_order_witness :
    (c1wm.transition (some "B") allOpts).err = none ∧
    (c1wm.transition (some "B") allOpts).m.state = some "B" ∧
    (c1wm.transition (some "B") allOpts).m.transitioning = false ∧
    (c1wm.transition (some "B") allOpts).tr =
      [Event.preExitE, Event.exited "A", Event.postExitE] ++
      (if (StateObj.mk false none []).initialized then [] else [Event.initE "B"]) ++
      [Event.preEnterE, Event.entered "B", Event.postEnterE] :=
  transition_hook_order c1wm "A" "B" ⟨false, none, []⟩ ⟨false, none, []⟩ rfl
    (by decide) rfl rfl

/-! ### C2: invalid transition targets -/

theorem stepLoop_invalid_spin (a k : String) :
    ∀ (fuel : Nat) (m : StateMachine) (aObj : StateObj),
      m.state = some a → m.transitioning = false →
      findState m.possibleStates a = some aObj →
      aObj.execRet = some k → k ≠ "" →
      findState m.possibleStates k = none →
      (stepLoop fuel m).err = some "NonTermination" ∧
      (stepLoop fuel m).m.state = some a ∧
      (stepLoop fuel m).m.transitioning = false ∧
      (0 < fuel → (stepLoop fuel m).rejection = some ("Invalid state " ++ k)) := by
  intro fuel
  induction fuel with
  | zero =>
    intro m aObj hs htr hfa hret hk hnk
    simp [stepLoop, hs, htr]
  | succ fuel ih =>
    intro m aObj hs htr hfa hret hk hnk
    obtain ⟨i0, ps0, sa0, st0, q0, stk0, trn0, ph0, cd0⟩ := m
    dsimp only at hs htr hfa hnk
    subst hs
    subst htr
    have hti := transition_invalid
      (StateMachine.mk i0 ps0 sa0 (some a) (q0 ++ aObj.execCbs) stk0 false ph0 cd0)
      k noOpts hnk
    obtain ⟨e1, e2, e3, _⟩ :=
      ih (StateMachine.mk i0 ps0 sa0 (some a) (q0 ++ aObj.execCbs) stk0 false ph0 cd0)
        aObj rfl rfl hfa hret hk hnk
    refine ⟨?_, ?_, ?_, fun _ => ?_⟩ <;>
      simp [stepLoop, propKey, jsTruthy, hfa, hret, hk, hti, e1, e2, e3]

/-- C2 counterexample: the claim says every `execute` return of an
unregistered name fails like an explicit `transition` call.  Neither half of
that holds.  On `c2cm` (whose `A.execute` returns `""`, not a registered
key) an explicit `transition('')` does reject with `Invalid state`, yet the
`step` signals no error at all: `if (newState)` treats `''` as "no
transition".  On `c2wm` (whose `A.execute` returns the unregistered
non-empty name `B`) `step` never observes the un-awaited transition's
rejection: `transitioning` stays false, the machine is untouched, and the
loop re-invokes `execute` without bound (the `NonTermination` marker), the
rejection `Invalid state B` left unhandled. -/
theorem execute_invalid_name_cex :
    (StateMachine.transition c2cm (some "") noOpts).err = some ("Invalid state " ++ "") ∧
    (StateMachine.step 1 c2cm []).err = none ∧
    (StateMachine.step 1 c2cm []).m.state = some "A" ∧
    (StateMachine.step 1 c2cm []).m.transitioning = false ∧
    (StateMachine.transition c2wm (some "B") noOpts).err = some ("Invalid state " ++ "B") ∧
    (StateMachine.step 3 c2wm []).err = some "NonTermination" ∧
    (StateMachine.step 3 c2wm []).m.state = some "A" ∧
    (StateMachine.step 3 c2wm []).m.transitioning = false ∧
    (StateMachine.step 3 c2wm []).rejection = some ("Invalid state " ++ "B") :=
  ⟨rfl, rfl, rfl, rfl, rfl, rfl, rfl, rfl, rfl⟩

/-- C2 (amended): a `transition` call to a name that is not a registered key
signals `Invalid state` and leaves the machine completely unchanged (in
particular `state` is unchanged and `transitioning` stays false).  An
`execute` method returning such an unregistered name does NOT fail the same
way, because `step` never awaits the transition: an empty-string return is
falsy and simply ends the loop with no error; a non-empty unregistered
return leaves `state` and `transitioning` unchanged while the loop re-runs
`execute` without bound (modeled by the `NonTermination` marker at every
fuel), the rejection `Invalid state k` being created but never observed by
`step`. -/
theorem invalid_transition_behavior :
    (∀ (m : StateMachine) (k : String) (opts : TransitionOpts),
       findState m.possibleStates k = none →
       m.transition (some k) opts = ⟨m, [], some ("Invalid state " ++ k)⟩) ∧
    (∀ (m : StateMachine) (a : String) (aObj : StateObj) (fuel : Nat) (args : List Nat),
       m.state = some a → m.transitioning = false → m.nextStepCallbacks = [] →
       findState m.possibleStates a = some aObj →
       aObj.execRet = some "" →
       (StateMachine.step (fuel + 1) m args).err = none ∧
       (StateMachine.step (fuel + 1) m args).m.state = some a ∧
       (StateMachine.step (fuel + 1) m args).m.transitioning = false) ∧
    (∀ (m : StateMachine) (a k : String) (aObj : StateObj) (fuel : Nat) (args : List Nat),
       m.state = some a → m.transitioning = false → m.nextStepCallbacks = [] →
       findState m.possibleStates a = some aObj →
       aObj.execRet = some k → k ≠ "" →
       findState m.possibleStates k = none →
       (StateMachine.step fuel m args).err = some "NonTermination" ∧
       (StateMachine.step fuel m args).m.state = some a ∧
       (StateMachine.step fuel m args).m.transitioning = false ∧
       (StateMachine.step (fuel + 1) m args).rejection =
         some ("Invalid state " ++ k)) := by
  refine ⟨transition_invalid, ?_, ?_⟩
  · intro m a aObj fuel args hs htr hq hfa hret
    simp [StateMachine.step, bootstrap, drain_empty (fuel + 1) m args hq, stepLoop,
      propKey, jsTruthy, hs, htr, hfa, hret]
  · intro m a k aObj fuel args hs htr hq hfa hret hk hnk
    obtain ⟨e1, e2, e3, _⟩ := stepLoop_invalid_spin a k fuel m aObj hs htr hfa hret hk hnk
    obtain ⟨_, _, _, f4⟩ :=
      stepLoop_invalid_spin a k (fuel + 1) m aObj hs htr hfa hret hk hnk
    have hb : bootstrap m = ⟨m, [], none⟩ := by simp [bootstrap, hs]
    refine ⟨?_, ?_, ?_, ?_⟩ <;>
      simp [StateMachine.step, hb, drain_empty fuel _ args hq,
        drain_empty (fuel + 1) _ args hq, e1, e2, e3, f4 (by omega)]

/-- Witness for C2's amended theorem at concrete machines. -/
theorem invalid_transition_behavior_witness :
    StateMachine.transition c2wm (some "X") noOpts =
      ⟨c2wm, [], some ("Invalid state " ++ "X")⟩ ∧
    (StateMachine.step 1 c2cm []).err = none ∧
    (StateMachine.step 2 c2wm []).err = some "NonTermination" ∧
    (StateMachine.step (2 + 1) c2wm []).rejection = some ("Invalid state " ++ "B") :=
  ⟨invalid_transition_behavior.1 c2wm "X" noOpts rfl,
   (invalid_transition_behavior.2.1 c2cm "A" ⟨false, some "", []⟩ 0 [] rfl rfl rfl
      rfl rfl).1,
   (invalid_transition_behavior.2.2 c2wm "A" "B" ⟨false, some "B", []⟩ 2 [] rfl rfl rfl
      rfl rfl (by decide) rfl).1,
   (invalid_transition_behavior.2.2 c2wm "A" "B" ⟨false, some "B", []⟩ 2 [] rfl rfl rfl
      rfl rfl (by decide) rfl).2.2.2⟩

/-! ### C3: same-step chaining of transitions -/

/-- C3: evaluation at the failing input (`c3wm`: `A.execute` returns `B`,
`B.execute` returns nothing).  The source's loop comment says transitions
happen instantly and the loop chains through them, but `step` never awaits
the async `transition`: it suspends at `await handleExited`, the
`while (!this.transitioning)` check then sees `true` and exits the loop, and
`step()` returns with `state` still `A`, mid-transition, without ever
calling `B.execute` (first four conjuncts).  The transition's enter hooks
settle only after `step()` has returned, and `B.execute` runs in the NEXT
`step()` call (last conjuncts) — not, as the claim and the code's own
comment state, within the same step. -/
theorem same_step_chaining_bug :
    (StateMachine.step 2 c3wm []).tr = [Event.executeE "A", Event.exited "A"] ∧
    (StateMachine.step 2 c3wm []).m.state = some "A" ∧
    (StateMachine.step 2 c3wm []).m.transitioning = true ∧
    (StateMachine.step 2 c3wm []).err = none ∧
    (StateMachine.step 2 c3wm []).post = [Event.initE "B", Event.entered "B"] ∧
    (StateMachine.step 2 c3wm []).settled.state = some "B" ∧
    (StateMachine.step 2 c3wm []).settled.transitioning = false ∧
    (StateMachine.step 1 (StateMachine.step 2 c3wm []).settled []).tr =
      [Event.executeE "B"] :=
  ⟨rfl, rfl, rfl, rfl, rfl, rfl, rfl, rfl⟩

/-! ### C4: the single-init invariant and the bootstrap path -/

/-- C4: evaluation at the failing input.  The bootstrap block of `step`
calls `init` on the initial state without consulting or setting its
`initialized` flag; so after `step()` bootstraps `A` (first conjunct: `init`
then `handleEntered` ran), `A`'s flag is still false (second conjunct), and
the later re-entry `transition('B')` then `transition('A')` runs
`Event.initE "A"` a second time (final conjunct: the second transition's
trace contains `init A` again).  This contradicts the claimed (and
spec-stated) at-most-once `init` invariant. -/
theorem bootstrap_reinit_bug :
    (StateMachine.step 1 c4m []).tr =
      [Event.initE "A", Event.entered "A", Event.executeE "A"] ∧
    findState (StateMachine.step 1 c4m []).m.possibleStates "A" =
      some ⟨false, none, []⟩ ∧
    (StateMachine.transition (StateMachine.step 1 c4m []).m (some "B") noOpts).tr =
      [Event.exited "A", Event.initE "B", Event.entered "B"] ∧
    (StateMachine.transition
        (StateMachine.transition (StateMachine.step 1 c4m []).m (some "B") noOpts).m
        (some "A") noOpts).tr =
      [Event.exited "B", Event.initE "A", Event.entered "A"] :=
  ⟨rfl, rfl, rfl, rfl⟩

/-! ### C5: construction is inert and the first step bootstraps -/

/-- C5: the constructor invokes no state method — `mkStateMachine` merely
builds the record, leaving `state = null` (first conjunct) — and the first
`step()` call on a fresh machine sets `state` to the initial state and
produces exactly one `init` followed by exactly one `handleEntered` on it,
before the `execute` call, with no exit hook anywhere in the trace (the
trace is exactly `[init A, handleEntered A, execute A]`). -/
theorem first_step_bootstrap (i : String) (ps : List (String × StateObj))
    (sa : List Nat) (iObj : StateObj) (fuel : Nat) (args : List Nat)
    (hfi : findState ps i = some iObj) (hexec : iObj.execRet = none) :
    (mkStateMachine i ps sa).state = none ∧
    (StateMachine.step (fuel + 1) (mkStateMachine i ps sa) args).err = none ∧
    (StateMachine.step (fuel + 1) (mkStateMachine i ps sa) args).m.state = some i ∧
    (StateMachine.step (fuel + 1) (mkStateMachine i ps sa) args).tr =
      [Event.initE i, Event.entered i, Event.executeE i] := by
  simp [StateMachine.step, bootstrap, mkStateMachine, StateMachine.addStates,
    drainCallbacks, stepLoop, propKey, jsTruthy, hfi, hexec]

/-- Witness for C5 at a concrete machine. -/
theorem first_step_bootstrap_witness :
    (mkStateMachine "A" [("A", ⟨false, none, []⟩)] []).state = none ∧
    (StateMachine.step 1 (mkStateMachine "A" [("A", ⟨false, none, []⟩)] []) []).err = none ∧
    (StateMachine.step 1 (mkStateMachine "A" [("A", ⟨false, none, []⟩)] []) []).m.state =
      some "A" ∧
    (StateMachine.step 1 (mkStateMachine "A" [("A", ⟨false, none, []⟩)] []) []).tr =
      [Event.initE "A", Event.entered "A", Event.executeE "A"] :=
  first_step_bootstrap "A" [("A", ⟨false, none, []⟩)] [] ⟨false, none, []⟩ 0 [] rfl rfl

/-! ### C6: stack round trip -/

/-- C6: from a machine with a non-null current state `A`, an empty stack and
a registered state `B`, `pushTransition('B')` pushes `A` and enters `B`, and
the following `popTransition()` succeeds, returns the machine to exactly the
state key `A` that was active before the push, and leaves `stateStack`
empty; and `popTransition()` on any machine whose stack is empty throws
`Cannot transitionPop, state stack is empty` leaving the machine unchanged. -/
theorem push_pop_round_trip :
    (∀ (m : StateMachine) (a b : String) (aObj bObj : StateObj),
      m.state = some a → m.stateStack = [] →
      findState m.possibleStates a = some aObj →
      findState m.possibleStates b = some bObj →
      (m.pushTransition (some b) noOpts).err = none ∧
      (m.pushTransition (some b) noOpts).m.state = some b ∧
      (m.pushTransition (some b) noOpts).m.stateStack = [some a] ∧
      ((m.pushTransition (some b) noOpts).m.popTransition).err = none ∧
      ((m.pushTransition (some b) noOpts).m.popTransition).m.state = some a ∧
      ((m.pushTransition (some b) noOpts).m.popTransition).m.stateStack = []) ∧
    (∀ (m : StateMachine), m.stateStack = [] →
      m.popTransition = ⟨m, [], some "Cannot transitionPop, state stack is empty"⟩) := by
  constructor
  · intro m a b aObj bObj hs hstk hfa hfb
    have hpush : m.pushTransition (some b) noOpts =
        StateMachine.transition { m with stateStack := m.state :: m.stateStack }
          (some b) noOpts := rfl
    have hns1 : findState ({ m with stateStack := m.state :: m.stateStack } :
        StateMachine).possibleStates (propKey (some b)) = some bObj := by
      simpa [propKey] using hfb
    have hcur1 : jsTruthy ({ m with stateStack := m.state :: m.stateStack } :
          StateMachine).state = true →
        (findState ({ m with stateStack := m.state :: m.stateStack } :
          StateMachine).possibleStates
          (propKey ({ m with stateStack := m.state :: m.stateStack } :
            StateMachine).state)).isSome = true := by
      intro _
      simp [hs, propKey, hfa]
    obtain ⟨t1err, t1state, t1trn, t1stk, t1ph, t1cb, t1sa, t1is, t1ps, t1tr⟩ :=
      transition_ok { m with stateStack := m.state :: m.stateStack } (some b) noOpts
        bObj hns1 hcur1
    rw [hpush]
    have hstk1 : (StateMachine.transition { m with stateStack := m.state :: m.stateStack }
        (some b) noOpts).m.stateStack = [some a] := by
      rw [t1stk]
      simp [hs, hstk]
    have hexa : ∃ o, findState (StateMachine.transition
        { m with stateStack := m.state :: m.stateStack } (some b) noOpts).m.possibleStates
        (propKey (some a)) = some o := by
      rw [t1ps]
      by_cases hab : a = b
      · subst hab
        cases hbi : bObj.initialized <;>
          simp [propKey, hbi, findState_setInitialized_self, hfa]
      · cases hbi : bObj.initialized <;>
          simp [propKey, hbi, findState_setInitialized_ne _ _ _ hab, hfa]
    have hexb : ∃ o, findState (StateMachine.transition
        { m with stateStack := m.state :: m.stateStack } (some b) noOpts).m.possibleStates
        b = some o := by
      rw [t1ps]
      cases hbi : bObj.initialized <;>
        simp [propKey, hbi, findState_setInitialized_self, hfb]
    obtain ⟨aObj', hfa'⟩ := hexa
    obtain ⟨bObj', hfb'⟩ := hexb
    have hcur2 : jsTruthy (StateMachine.transition
          { m with stateStack := m.state :: m.stateStack } (some b) noOpts).m.state = true →
        (findState (StateMachine.transition
          { m with stateStack := m.state :: m.stateStack } (some b) noOpts).m.possibleStates
          (propKey (StateMachine.transition
            { m with stateStack := m.state :: m.stateStack }
            (some b) noOpts).m.state)).isSome = true := by
      intro _
      rw [t1state]
      simp [propKey, hfb']
    obtain ⟨p1, p2, p3, _, _⟩ :=
      popTransition_ok (StateMachine.transition
          { m with stateStack := m.state :: m.stateStack } (some b) noOpts).m
        (some a) [] aObj' hstk1 hfa' hcur2
    exact ⟨t1err, t1state, hstk1, p1, p2, p3⟩
  · intro m hm
    simp [StateMachine.popTransition, hm]

/-- Witness for C6 at a concrete machine. -/
theorem push_pop_round_trip_witness :
    ((({ mkStateMachine "A" [("A", ⟨false, none, []⟩), ("B", ⟨false, none, []⟩)] [] with
        state := some "A" } : StateMachine).pushTransition (some "B") noOpts).err = none ∧
      (({ mkStateMachine "A" [("A", ⟨false, none, []⟩), ("B", ⟨false, none, []⟩)] [] with
        state := some "A" } : StateMachine).pushTransition (some "B")
          noOpts).m.state = some "B" ∧
      (({ mkStateMachine "A" [("A", ⟨false, none, []⟩), ("B", ⟨false, none, []⟩)] [] with
        state := some "A" } : StateMachine).pushTransition (some "B")
          noOpts).m.stateStack = [some "A"] ∧
      ((({ mkStateMachine "A" [("A", ⟨false, none, []⟩), ("B", ⟨false, none, []⟩)] [] with
        state := some "A" } : StateMachine).pushTransition (some "B")
          noOpts).m.popTransition).err = none ∧
      ((({ mkStateMachine "A" [("A", ⟨false, none, []⟩), ("B", ⟨false, none, []⟩)] [] with
        state := some "A" } : StateMachine).pushTransition (some "B")
          noOpts).m.popTransition).m.state = some "A" ∧
      ((({ mkStateMachine "A" [("A", ⟨false, none, []⟩), ("B", ⟨false, none, []⟩)] [] with
        state := some "A" } : StateMachine).pushTransition (some "B")
          noOpts).m.popTransition).m.stateStack = []) ∧
    (mkStateMachine "A" [] []).popTransition =
      ⟨mkStateMachine "A" [] [], [], some "Cannot transitionPop, state stack is empty"⟩ :=
  ⟨push_pop_round_trip.1
      { mkStateMachine "A" [("A", ⟨false, none, []⟩), ("B", ⟨false, none, []⟩)] [] with
        state := some "A" }
      "A" "B" ⟨false, none, []⟩ ⟨false, none, []⟩ rfl rfl rfl rfl,
   push_pop_round_trip.2 (mkStateMachine "A" [] []) rfl⟩

/-! ### C7: pushAndWait resolves only at its captured depth -/

/-- C7: a `pushAndWait` call subscribes exactly one handler carrying the
stack depth captured before the push (first part); and a handler with
captured depth `c` resolves on a successful `popTransition` exactly when the
pop's reported (post-pop) depth equals `c` — pops reporting any other depth
(in particular deeper ones) leave it pending and subscribed — and once it
resolves it is unsubscribed (second part). -/
theorem pushAndWait_depth_matching :
    (∀ (m : StateMachine) (ns : Option String) (opts : TransitionOpts) (hid : Nat),
      (m.pushAndWait ns opts hid).m.popHandlers =
        m.popHandlers ++ [Handler.mk hid m.stateStack.length]) ∧
    (∀ (M : StateMachine) (top : Option String) (rest : List (Option String))
       (obj : StateObj) (hid c : Nat),
      M.stateStack = top :: rest →
      findState M.possibleStates (propKey top) = some obj →
      (jsTruthy M.state = true →
        (findState M.possibleStates (propKey M.state)).isSome = true) →
      Handler.mk hid c ∈ M.popHandlers →
      (∀ h ∈ M.popHandlers, h.id = hid → h.captured = c) →
      ((Event.resolveE hid ∈ (M.popTransition).tr ↔ rest.length = c) ∧
       (rest.length = c → Handler.mk hid c ∉ (M.popTransition).m.popHandlers))) := by
  constructor
  · intro m ns opts hid
    simp [StateMachine.pushAndWait, StateMachine.pushTransition, transition_popHandlers]
  · intro M top rest obj hid c hstk hns hcur hmem huniq
    obtain ⟨p1, p2, p3, p4, p5⟩ := popTransition_ok M top rest obj hstk hns hcur
    have hns' : findState ({ M with stateStack := rest } : StateMachine).possibleStates
        (propKey top) = some obj := hns
    have hcur' : jsTruthy ({ M with stateStack := rest } : StateMachine).state = true →
        (findState ({ M with stateStack := rest } : StateMachine).possibleStates
          (propKey ({ M with stateStack := rest } : StateMachine).state)).isSome = true := hcur
    obtain ⟨_, hnores, _⟩ :=
      transition_tr_facts { M with stateStack := rest } top noOpts obj hns' hcur'
    constructor
    · rw [p5]
      constructor
      · intro hmem'
        rcases List.mem_append.mp hmem' with h | h
        · rcases List.mem_append.mp h with h | h
          · exact absurd (List.take_subset _ _ h) (hnores hid)
          · rcases List.mem_cons.mp h with h | h
            · cases h
            · obtain ⟨hh, hhf, hheq⟩ := List.mem_map.mp h
              have hhid : hh.id = hid := by
                cases hheq
                rfl
              obtain ⟨hhm, hhp⟩ := List.mem_filter.mp hhf
              have hcap : hh.captured = c := huniq hh hhm hhid
              have h2 : hh.captured = rest.length := by simpa using hhp
              exact h2.symm.trans hcap
        · exact absurd (List.drop_subset _ _ h) (hnores hid)
      · intro hlen
        refine List.mem_append.mpr (Or.inl (List.mem_append.mpr (Or.inr
          (List.mem_cons.mpr (Or.inr ?_)))))
        refine List.mem_map.mpr ⟨Handler.mk hid c, ?_, rfl⟩
        refine List.mem_filter.mpr ⟨hmem, ?_⟩
        simp [hlen]
    · intro hlen hmem'
      rw [p4] at hmem'
      have := List.of_mem_filter hmem'
      simp [hlen] at this

/-- Witness for C7 at concrete machines: the registration half on a fresh
machine, and the resolution half on `c7wm`, whose pending handler captured
depth 0 and whose pop reports depth 0. -/
theorem pushAndWait_depth_matching_witness :
    ((mkStateMachine "A" [] []).pushAndWait (some "B") noOpts 7).m.popHandlers =
      [] ++ [Handler.mk 7 0] ∧
    (Event.resolveE 7 ∈ (c7wm.popTransition).tr ↔
      ([] : List (Option String)).length = 0) ∧
    (([] : List (Option String)).length = 0 →
      Handler.mk 7 0 ∉ (c7wm.popTransition).m.popHandlers) :=
  ⟨pushAndWait_depth_matching.1 (mkStateMachine "A" [] []) (some "B") noOpts 7,
   (pushAndWait_depth_matching.2 c7wm (some "A") [] ⟨false, none, []⟩ 7 0 rfl rfl
      (fun _ => by decide) (by decide) (by decide)).1,
   (pushAndWait_depth_matching.2 c7wm (some "A") [] ⟨false, none, []⟩ 7 0 rfl rfl
      (fun _ => by decide) (by decide) (by decide)).2⟩

/-! ### C8: popTransition emission timing -/

/-- C8 (code bug): the claim says the `popTransition` event fires after the
transition into the popped state is complete.  In the source the `transition`
call inside `popTransition` is not awaited, so the emit runs right after the
transition's first suspension — before the popped-to state's enter hooks have
run.  Concretely: a machine in state `B` with `A` on the stack pops to `A`,
and the emission (and any `pushAndWait` resolutions) lands between `B`'s
`handleExited` and `A`'s `init`/`handleEntered`, not after them. -/
theorem pop_emit_before_enter_bug :
    (c8wm.popTransition).err = none ∧
    (c8wm.popTransition).tr =
      [Event.exited "B", Event.popEmitE 0, Event.initE "A", Event.entered "A"] ∧
    (c8wm.popTransition).m.state = some "A" ∧
    (c8wm.popTransition).m.stateStack = [] := by
  refine ⟨?_, ?_, ?_, ?_⟩ <;> rfl

/-! ### C10: pushing before the first step pushes null -/

/-- C10: if `pushTransition` is called while `state` is still null (before
the first step), the null value itself is pushed onto `stateStack`; the push
still enters the target state `B` (with no exit hooks, there being no prior
state).  The matching `popTransition` then pops null, and `transition(null)`
— whose membership test coerces null to the property key `"null"` — throws
`Invalid state null`; the machine stays in `B` instead of having a prior
state restored (the pop only removes the null entry from the stack). -/
theorem push_before_first_step_null (m : StateMachine) (b : String) (bObj : StateObj)
    (hs : m.state = none) (hstk : m.stateStack = [])
    (hfb : findState m.possibleStates b = some bObj)
    (hnull : findState m.possibleStates "null" = none) :
    (m.pushTransition (some b) noOpts).err = none ∧
    (m.pushTransition (some b) noOpts).m.stateStack = [none] ∧
    (m.pushTransition (some b) noOpts).m.state = some b ∧
    ((m.pushTransition (some b) noOpts).m.popTransition).err =
      some "Invalid state null" ∧
    ((m.pushTransition (some b) noOpts).m.popTransition).m.state = some b ∧
    ((m.pushTransition (some b) noOpts).m.popTransition).m.stateStack = [] := by
  have hbn : b ≠ "null" := by
    intro h
    rw [h] at hfb
    rw [hfb] at hnull
    simp at hnull
  have hpush : m.pushTransition (some b) noOpts =
      StateMachine.transition { m with stateStack := m.state :: m.stateStack }
        (some b) noOpts := rfl
  have hns1 : findState ({ m with stateStack := m.state :: m.stateStack } :
      StateMachine).possibleStates (propKey (some b)) = some bObj := by
    simpa [propKey] using hfb
  have hcur1 : jsTruthy ({ m with stateStack := m.state :: m.stateStack } :
        StateMachine).state = true →
      (findState ({ m with stateStack := m.state :: m.stateStack } :
        StateMachine).possibleStates
        (propKey ({ m with stateStack := m.state :: m.stateStack } :
          StateMachine).state)).isSome = true := by
    intro h
    rw [show ({ m with stateStack := m.state :: m.stateStack } :
      StateMachine).state = m.state from rfl, hs] at h
    simp [jsTruthy] at h
  obtain ⟨t1err, t1state, t1trn, t1stk, t1ph, t1cb, t1sa, t1is, t1ps, t1tr⟩ :=
    transition_ok { m with stateStack := m.state :: m.stateStack } (some b) noOpts
      bObj hns1 hcur1
  rw [hpush]
  have hstk1 : (StateMachine.transition { m with stateStack := m.state :: m.stateStack }
      (some b) noOpts).m.stateStack = [none] := by
    rw [t1stk]
    simp [hs, hstk]
  have hnull2 : findState ({ (StateMachine.transition
        { m with stateStack := m.state :: m.stateStack } (some b) noOpts).m with
        stateStack := ([] : List (Option String)) } : StateMachine).possibleStates
      (propKey none) = none := by
    show findState (StateMachine.transition
      { m with stateStack := m.state :: m.stateStack } (some b) noOpts).m.possibleStates
      (propKey none) = none
    rw [t1ps]
    cases hbi : bObj.initialized <;>
      simp [propKey, hbi, hnull,
        findState_setInitialized_ne _ _ _ (fun h => hbn h.symm)]
  have herr := transition_invalid_opt
    { (StateMachine.transition { m with stateStack := m.state :: m.stateStack }
        (some b) noOpts).m with stateStack := ([] : List (Option String)) }
    none noOpts hnull2
  have hmsg : ("Invalid state " ++ propKey none) = "Invalid state null" := rfl
  rw [hmsg] at herr
  refine ⟨t1err, hstk1, t1state, ?_, ?_, ?_⟩ <;>
  · simp only [StateMachine.popTransition, hstk1]
    rw [herr]
    try simp [emitPop, t1state]

/-- Witness for C10 at a concrete fresh machine. -/
theorem push_before_first_step_null_witness :
    ((mkStateMachine "B" [("B", ⟨false, none, []⟩)] []).pushTransition (some "B")
      noOpts).err = none ∧
    ((mkStateMachine "B" [("B", ⟨false, none, []⟩)] []).pushTransition (some "B")
      noOpts).m.stateStack = [none] ∧
    ((mkStateMachine "B" [("B", ⟨false, none, []⟩)] []).pushTransition (some "B")
      noOpts).m.state = some "B" ∧
    (((mkStateMachine "B" [("B", ⟨false, none, []⟩)] []).pushTransition (some "B")
      noOpts).m.popTransition).err = some "Invalid state null" ∧
    (((mkStateMachine "B" [("B", ⟨false, none, []⟩)] []).pushTransition (some "B")
      noOpts).m.popTransition).m.state = some "B" ∧
    (((mkStateMachine "B" [("B", ⟨false, none, []⟩)] []).pushTransition (some "B")
      noOpts).m.popTransition).m.stateStack = [] :=
  push_before_first_step_null (mkStateMachine "B" [("B", ⟨false, none, []⟩)] [])
    "B" ⟨false, none, []⟩ rfl rfl rfl rfl

/-! ### C9: nextStep callbacks -/

/-- A `step` whose current state's `execute` returns a registered truthy
name: the call returns at the transition's first suspension.  The callbacks
`execute` registered via `nextStep` are not invoked — neither during the
call (its trace is just the `execute` and the exit hook) nor while the
transition settles — and they are still queued on the settled machine. -/
theorem step_suspend_aux (fuel : Nat) (m : StateMachine) (args : List Nat)
    (a b : String) (aObj bObj : StateObj)
    (hs : m.state = some a) (ha' : a ≠ "")
    (hfa : findState m.possibleStates a = some aObj)
    (htr : m.transitioning = false)
    (hq : m.nextStepCallbacks = [])
    (haret : aObj.execRet = some b) (hb' : b ≠ "")
    (hfb : findState m.possibleStates b = some bObj) :
    (StateMachine.step (fuel + 1) m args).err = none ∧
    (StateMachine.step (fuel + 1) m args).tr = [Event.executeE a, Event.exited a] ∧
    (StateMachine.step (fuel + 1) m args).m.state = some a ∧
    (StateMachine.step (fuel + 1) m args).m.transitioning = true ∧
    (StateMachine.step (fuel + 1) m args).post =
      (if bObj.initialized then [] else [Event.initE b]) ++ [Event.entered b] ∧
    (StateMachine.step (fuel + 1) m args).settled.state = some b ∧
    (StateMachine.step (fuel + 1) m args).settled.transitioning = false ∧
    (StateMachine.step (fuel + 1) m args).settled.stateArgs = m.stateArgs ∧
    (StateMachine.step (fuel + 1) m args).settled.cbDefs = m.cbDefs ∧
    (StateMachine.step (fuel + 1) m args).settled.nextStepCallbacks = aObj.execCbs ∧
    (StateMachine.step (fuel + 1) m args).settled.possibleStates =
      (if bObj.initialized then m.possibleStates
       else setInitialized m.possibleStates b) ∧
    (StateMachine.step (fuel + 1) m args).rejection = none := by
  cases hbi : bObj.initialized <;>
    simp [StateMachine.step, bootstrap, hs, drainCallbacks, hq, stepLoop, htr, propKey,
      hfa, haret, jsTruthy, bne_iff_ne, ha', hb', StateMachine.transition, hasKey, hfb,
      StateMachine.exitPhase, StateMachine.enterPhase, StateMachine.transitionSuspension,
      noOpts, hbi]

/-- A `step` whose current state's `execute` returns nothing (or the falsy
empty string) and whose queued callbacks register nothing further: the drain
invokes each queued callback once, in FIFO order, with
`(stateArgs..., stepArgs...)`, all before `execute` runs, and the queue
afterwards holds exactly what this `execute` registered. -/
theorem step_idle_aux (fuel : Nat) (m : StateMachine) (args : List Nat)
    (a : String) (aObj : StateObj)
    (hs : m.state = some a)
    (htr : m.transitioning = false)
    (hfa : findState m.possibleStates a = some aObj)
    (hret : jsTruthy aObj.execRet = false)
    (hregs : ∀ c ∈ m.nextStepCallbacks, cbRegs m.cbDefs c = [])
    (hlen : m.nextStepCallbacks.length ≤ fuel + 1) :
    (StateMachine.step (fuel + 1) m args).err = none ∧
    (StateMachine.step (fuel + 1) m args).tr =
      m.nextStepCallbacks.map
        (fun id => Event.callbackE id (m.stateArgs ++ args)) ++ [Event.executeE a] ∧
    (StateMachine.step (fuel + 1) m args).m.nextStepCallbacks = aObj.execCbs ∧
    (StateMachine.step (fuel + 1) m args).m.state = some a := by
  by_cases hqe : m.nextStepCallbacks = []
  · simp [StateMachine.step, bootstrap, hs, drainCallbacks, hqe, stepLoop, htr,
      propKey, hfa, hret]
  · have hd := drainLoop_plain m.cbDefs (m.stateArgs ++ args) (fuel + 1)
      m.nextStepCallbacks 0 hregs (by simpa using hlen)
    simp [StateMachine.step, bootstrap, hs, drainCallbacks, List.isEmpty_iff, hqe, hd,
      stepLoop, htr, propKey, hfa, hret]

/-- Counterexample to C9 as stated: callback 3, queued before the step,
registers callback 4 via `nextStep` DURING step N's drain.  Because the
drain's `for...of` iterates the live array, callback 4 is invoked during the
same step N (not step N+1), and the queue clear then discards it, so step
N+1 invokes no callback at all. -/
theorem drain_live_registration_cex :
    (StateMachine.step 2 c9cm [7]).tr =
      [Event.callbackE 3 [7], Event.callbackE 4 [7], Event.executeE "A"] ∧
    (StateMachine.step 2 c9cm [7]).m.nextStepCallbacks = [] ∧
    (StateMachine.step 2 (StateMachine.step 2 c9cm [7]).m [8]).tr =
      [Event.executeE "A"] := by
  refine ⟨?_, ?_, ?_⟩ <;> rfl

/-- C9 (amended): a callback registered via `nextStep` OUTSIDE the drain of
step N — here by the running state's `execute` — is not invoked during step
N (neither in its synchronous trace nor while its transition settles), stays
queued, and is invoked exactly once at the start of step N+1, before any
`execute`, with the fixed `stateArgs` followed by step N+1's `stepArgs`, in
FIFO order with the other queued callbacks, and is then discarded (part 1).
But a callback registered DURING the drain of step N, by a draining
callback, is invoked later in that same drain of step N — the `for...of`
iterates the live array — and the clear then discards it too, so it never
runs in step N+1 (part 2). -/
theorem nextStep_deferred_amended :
    (∀ (f1 f2 : Nat) (m : StateMachine) (args1 args2 : List Nat)
       (a b : String) (aObj bObj : StateObj),
      m.state = some a → a ≠ "" →
      findState m.possibleStates a = some aObj →
      m.transitioning = false →
      m.nextStepCallbacks = [] →
      aObj.execRet = some b → b ≠ "" →
      findState m.possibleStates b = some bObj →
      bObj.execRet = none →
      (∀ c ∈ aObj.execCbs, cbRegs m.cbDefs c = []) →
      (StateMachine.step (f1 + 1) m args1).tr =
        [Event.executeE a, Event.exited a] ∧
      (StateMachine.step (f1 + 1) m args1).post =
        (if bObj.initialized then [] else [Event.initE b]) ++ [Event.entered b] ∧
      (StateMachine.step (f1 + 1) m args1).settled.nextStepCallbacks =
        aObj.execCbs ∧
      (StateMachine.step (aObj.execCbs.length + f2 + 1)
          (StateMachine.step (f1 + 1) m args1).settled args2).tr =
        aObj.execCbs.map (fun id => Event.callbackE id (m.stateArgs ++ args2)) ++
          [Event.executeE b] ∧
      (StateMachine.step (aObj.execCbs.length + f2 + 1)
          (StateMachine.step (f1 + 1) m args1).settled
          args2).m.nextStepCallbacks = bObj.execCbs) ∧
    (∀ (fuel : Nat) (m : StateMachine) (args : List Nat) (a : String)
       (aObj : StateObj) (c d : Nat),
      m.state = some a →
      findState m.possibleStates a = some aObj →
      m.transitioning = false →
      m.nextStepCallbacks = [c] →
      cbRegs m.cbDefs c = [d] →
      cbRegs m.cbDefs d = [] →
      jsTruthy aObj.execRet = false →
      (StateMachine.step (fuel + 2) m args).tr =
        [Event.callbackE c (m.stateArgs ++ args),
         Event.callbackE d (m.stateArgs ++ args),
         Event.executeE a] ∧
      (StateMachine.step (fuel + 2) m args).m.nextStepCallbacks = aObj.execCbs) := by
  constructor
  · intro f1 f2 m args1 args2 a b aObj bObj hs ha' hfa htr hq haret hb' hfb hbret hregs
    obtain ⟨e1, e2, e3, e4, e5, e6, e7, e8, e9, e10, e11, e12⟩ :=
      step_suspend_aux f1 m args1 a b aObj bObj hs ha' hfa htr hq haret hb' hfb
    have hregs2 : ∀ c ∈ (StateMachine.step (f1 + 1) m args1).settled.nextStepCallbacks,
        cbRegs (StateMachine.step (f1 + 1) m args1).settled.cbDefs c = [] := by
      rw [e10, e9]
      exact hregs
    have hlen2 : (StateMachine.step (f1 + 1) m args1).settled.nextStepCallbacks.length ≤
        (aObj.execCbs.length + f2) + 1 := by
      rw [e10]
      omega
    cases hbi : bObj.initialized with
    | true =>
      rw [hbi] at e5 e11
      have hfb2 : findState
          (StateMachine.step (f1 + 1) m args1).settled.possibleStates b = some bObj := by
        rw [e11]
        simp [hfb]
      have hret2 : jsTruthy bObj.execRet = false := by
        simp [hbret, jsTruthy]
      obtain ⟨i1, i2, i3, i4⟩ :=
        step_idle_aux (aObj.execCbs.length + f2)
          (StateMachine.step (f1 + 1) m args1).settled args2 b bObj e6 e7 hfb2 hret2
          hregs2 hlen2
      rw [e10, e8] at i2
      exact ⟨e2, e5, e10, i2, i3⟩
    | false =>
      rw [hbi] at e5 e11
      have hfb2 : findState
          (StateMachine.step (f1 + 1) m args1).settled.possibleStates b =
          some { bObj with initialized := true } := by
        rw [e11]
        simp [findState_setInitialized_self, hfb]
      have hret2 : jsTruthy ({ bObj with initialized := true } : StateObj).execRet =
          false := by
        simp [hbret, jsTruthy]
      obtain ⟨i1, i2, i3, i4⟩ :=
        step_idle_aux (aObj.execCbs.length + f2)
          (StateMachine.step (f1 + 1) m args1).settled args2 b
          { bObj with initialized := true } e6 e7 hfb2 hret2 hregs2 hlen2
      rw [e10, e8] at i2
      exact ⟨e2, e5, e10, i2, i3⟩
  · intro fuel m args a aObj c d hs hfa htr hq hc hdreg hret
    have h2 : drainLoop m.cbDefs (m.stateArgs ++ args) fuel [c, d] 2 = ([], none) :=
      drainLoop_done m.cbDefs (m.stateArgs ++ args) fuel [c, d] 2 (by simp)
    have hd0 : drainLoop m.cbDefs (m.stateArgs ++ args) (fuel + 2) [c] 0 =
        ([Event.callbackE c (m.stateArgs ++ args),
          Event.callbackE d (m.stateArgs ++ args)], none) := by
      simp [drainLoop, hc, hdreg, h2]
    constructor <;>
      simp [StateMachine.step, bootstrap, hs, drainCallbacks, hq, hd0, stepLoop, htr,
        propKey, hfa, hret]

/-- Witness for the amended C9: part 1 on `c9wm` (`A.execute` registers
callback 5 and transitions to `B`; step 1 leaves it queued, step 2 invokes
it once before `B.execute` and discards it), part 2 on `c9cm` (callback 3
registers callback 4 mid-drain; 4 runs in the same step and the queue ends
empty). -/
theorem nextStep_deferred_amended_witness :
    ((StateMachine.step 1 c9wm [1]).tr = [Event.executeE "A", Event.exited "A"] ∧
     (StateMachine.step 1 c9wm [1]).post = [Event.initE "B", Event.entered "B"] ∧
     (StateMachine.step 1 c9wm [1]).settled.nextStepCallbacks = [5] ∧
     (StateMachine.step 2 (StateMachine.step 1 c9wm [1]).settled [2]).tr =
       [Event.callbackE 5 [2], Event.executeE "B"] ∧
     (StateMachine.step 2
         (StateMachine.step 1 c9wm [1]).settled [2]).m.nextStepCallbacks = []) ∧
    ((StateMachine.step 2 c9cm [7]).tr =
       [Event.callbackE 3 [7], Event.callbackE 4 [7], Event.executeE "A"] ∧
     (StateMachine.step 2 c9cm [7]).m.nextStepCallbacks = []) :=
  ⟨nextStep_deferred_amended.1 0 0 c9wm [1] [2] "A" "B"
      ⟨false, some "B", [5]⟩ ⟨false, none, []⟩ rfl (by decide) rfl rfl rfl rfl
      (by decide) rfl rfl (by decide),
   nextStep_deferred_amended.2 0 c9cm [7] "A" ⟨false, none, []⟩ 3 4
      rfl rfl rfl rfl rfl rfl rfl⟩
